import Mathlib

/-!
Shallow embedding of `src/services/websocket.ts` (final revision: the
`WebSocketService` class with the activity tracker, `CONFIG`, and the
notification-dedup map).  JS objects keyed by strings are modelled as
association lists in insertion order (`getKey` / `setKey` mirror property
read / property write); `Date.now()` is an explicit `now : Nat` parameter;
DOM lookups (`document.getElementById`) are an environment predicate
`env : String → Bool` saying which element ids are mounted; dispatched
`screen-status-change` events are returned as explicit lists; timers are
booleans (running or not), and the pending reconnect timeout stores the
scheduled backoff delay.  `Math.pow(1.5, n)` with `n ≤ 10` is exact in
binary floating point, so the backoff delay is modelled exactly in `ℚ`.
-/

/-- Property read on a JS object: first binding wins (keys are unique). -/
def getKey {α : Type} : List (String × α) → String → Option α
  | [], _ => none
  | (k, v) :: rest, key => if k = key then some v else getKey rest key

/-- Property write on a JS object: replace in place, or append a new key. -/
def setKey {α : Type} : List (String × α) → String → α → List (String × α)
  | [], key, v => [(key, v)]
  | (k, w) :: rest, key, v =>
    if k = key then (key, v) :: rest else (k, w) :: setKey rest key v

/-- `Object.keys`, in insertion order. -/
def keysOf {α : Type} (m : List (String × α)) : List String := m.map Prod.fst

/-- Whether `pat` occurs at the head of the character list. -/
def startsWithL : List Char → List Char → Bool
  | [], _ => true
  | _ :: _, [] => false
  | p :: ps, c :: cs => p == c && startsWithL ps cs

/-- Remove the first (leftmost) occurrence of `pat`, like
JS `String.prototype.replace` with a string pattern and `""` replacement. -/
def removeFirstOccL (pat : List Char) : List Char → List Char
  | [] => []
  | c :: cs =>
    if startsWithL pat (c :: cs) then List.drop pat.length (c :: cs)
    else c :: removeFirstOccL pat cs

/-- JS `String.prototype.toLowerCase` (the identifiers here are ASCII);
defined over the character list so that it evaluates in the kernel. -/
def toLowerCase (s : String) : String := ⟨s.data.map Char.toLower⟩

/-- JS `s.replace(pat, "")`: drops the first occurrence of `pat`, if any. -/
def replaceFirst (s pat : String) : String := ⟨removeFirstOccL pat.toList s.toList⟩

/-- The `screenId.replace('screen-', '')` idiom used throughout the service. -/
def stripScreen (s : String) : String := replaceFirst s "screen-"

/-- The normalized notification key produced for a raw tracker key:
strip the `screen-` marker, then lower-case (as `updateScreenStatus` does). -/
def normOf (s : String) : String := toLowerCase (stripScreen s)

/-- JS truthiness of an optional string field (`undefined` and `""` are falsy). -/
def truthy : Option String → Bool
  | none => false
  | some s => !(s == "")

/-- One liveness record of the `ActivityTracker` map. -/
structure Activity where
  lastUpdate : Nat
  isOnline : Bool
deriving DecidableEq

/-- The parsed inbound envelope (fields `timestamp` / `time` are never read). -/
structure WSMessage where
  type : String
  id : Option String := none
  data : Option String := none

/-- The `CONFIG` constant of the source file (timeouts in milliseconds). -/
structure ServiceConfig where
  offline : Nat
  ping : Nat
  activityCheck : Nat
  maxReconnectAttempts : Nat

def CONFIG : ServiceConfig :=
  { offline := 3000, ping := 30000, activityCheck := 1000, maxReconnectAttempts := 10 }

/-- The mutable fields of the `WebSocketService` class. -/
structure ServiceState where
  socketOpen : Bool
  reconnectAttempts : Nat
  reconnectTimeout : Option ℚ
  pingInterval : Bool
  activityCheckInterval : Bool
  activityTracker : List (String × Activity)
  lastNotificationStatus : List (String × Bool)
deriving DecidableEq

/-- Field initializers of the class. -/
def initialState : ServiceState :=
  { socketOpen := false, reconnectAttempts := 0, reconnectTimeout := none,
    pingInterval := false, activityCheckInterval := false,
    activityTracker := [], lastNotificationStatus := [] }

/-- A dispatched `screen-status-change` event: normalized username and flag. -/
abbrev PresenceEvent := String × Bool

/-- `updateActivity`: store the current timestamp and flag under the raw id. -/
def updateActivity (st : ServiceState) (screenId : String) (isOnline : Bool) (now : Nat) :
    ServiceState :=
  { st with activityTracker :=
      setKey st.activityTracker screenId { lastUpdate := now, isOnline := isOnline } }

/-- `updateScreenStatus`: lower-case the username, dedup against the last
notified state, and on a change record it and dispatch one event. -/
def updateScreenStatus (st : ServiceState) (username : String) (isOnline : Bool) :
    ServiceState × List PresenceEvent :=
  let normalizedUsername := toLowerCase username
  if getKey st.lastNotificationStatus normalizedUsername = some isOnline then (st, [])
  else
    ({ st with lastNotificationStatus :=
         setKey st.lastNotificationStatus normalizedUsername isOnline },
     [(normalizedUsername, isOnline)])

/-- The staleness test of `checkActivity`:
`activity.isOnline && now - activity.lastUpdate > CONFIG.TIMEOUT.offline`. -/
def staleAt (now : Nat) (a : Activity) : Bool :=
  a.isOnline && decide (CONFIG.offline < now - a.lastUpdate)

/-- The `Object.entries(...).forEach` body of `checkActivity`, folded over a
snapshot of the entries while threading the service state. -/
def sweepGo (now : Nat) : List (String × Activity) → ServiceState → ServiceState × List PresenceEvent
  | [], st => (st, [])
  | (screenId, a) :: rest, st =>
    if staleAt now a then
      let st1 := updateActivity st screenId false now
      let p := updateScreenStatus st1 (stripScreen screenId) false
      let q := sweepGo now rest p.1
      (q.1, p.2 ++ q.2)
    else sweepGo now rest st

/-- `checkActivity`: the periodic sweep over the activity tracker. -/
def checkActivity (st : ServiceState) (now : Nat) : ServiceState × List PresenceEvent :=
  sweepGo now st.activityTracker st

def stopPingInterval (st : ServiceState) : ServiceState := { st with pingInterval := false }

def startPingInterval (st : ServiceState) : ServiceState := { st with pingInterval := true }

def stopActivityCheck (st : ServiceState) : ServiceState := { st with activityCheckInterval := false }

def startActivityCheck (st : ServiceState) : ServiceState := { st with activityCheckInterval := true }

/-- The backoff delay computed by `triggerReconnect`:
`Math.min(1000 * Math.pow(1.5, attempts), 30000)` (exact in `ℚ`). -/
def delayMs (n : Nat) : ℚ := min (1000 * (3 / 2 : ℚ) ^ n) 30000

/-- `triggerReconnect`: clear any pending timer; below the attempt cap,
increment the counter and schedule the backoff timer; at the cap, surface
the exhausted condition (the returned flag) and schedule nothing. -/
def triggerReconnect (st : ServiceState) : ServiceState × Bool :=
  let st0 := { st with reconnectTimeout := none }
  if st0.reconnectAttempts < CONFIG.maxReconnectAttempts then
    ({ st0 with
        reconnectAttempts := st0.reconnectAttempts + 1
        reconnectTimeout := some (delayMs (st0.reconnectAttempts + 1)) }, false)
  else (st0, true)

/-- `handleOpen`: reset the attempt counter (the identify send has no
effect on the service fields). -/
def handleOpen (st : ServiceState) : ServiceState := { st with reconnectAttempts := 0 }

/-- `send`: writes only when the socket is open (returns whether it sent);
the service fields are never modified. -/
def send (st : ServiceState) (_msg : WSMessage) : ServiceState × Bool := (st, st.socketOpen)

/-- The `Object.keys(...).forEach` body shared by `handleClose` and
`disconnect`: notify offline for every tracked key (tracker untouched). -/
def notifyGo : List String → ServiceState → ServiceState × List PresenceEvent
  | [], st => (st, [])
  | screenId :: rest, st =>
    let p := updateScreenStatus st (stripScreen screenId) false
    let q := notifyGo rest p.1
    (q.1, p.2 ++ q.2)

/-- `handleClose`: stop both periodic timers, notify offline for every
tracked key, then trigger a reconnect (flag = exhausted surfaced). -/
def handleClose (st : ServiceState) : ServiceState × List PresenceEvent × Bool :=
  let st1 := stopActivityCheck (stopPingInterval st)
  let p := notifyGo (keysOf st1.activityTracker) st1
  let q := triggerReconnect p.1
  (q.1, p.2, q.2)

/-- `disconnect`: close the socket, clear the reconnect timer, stop both
periodic timers, then notify offline for every tracked key. -/
def disconnect (st : ServiceState) : ServiceState × List PresenceEvent :=
  let st1 := { st with socketOpen := false }
  let st2 := { st1 with reconnectTimeout := none }
  let st3 := stopActivityCheck (stopPingInterval st2)
  notifyGo (keysOf st3.activityTracker) st3

/-- `isScreenOnline`: `!!this.activityTracker[`screen-${username.toLowerCase()}`]?.isOnline`. -/
def isScreenOnline (st : ServiceState) (username : String) : Bool :=
  match getKey st.activityTracker ("screen-" ++ toLowerCase username) with
  | none => false
  | some a => a.isOnline

/-- `handleMessage`: `msg = none` is an unparsable envelope (the catch
path).  Image messages with a truthy id always update the activity tracker
under the raw id; the card notification fires only when the card element is
mounted and the data field is truthy.  The modal image write and the pong
branch touch no service field and dispatch nothing. -/
def handleMessage (env : String → Bool) (st : ServiceState) (now : Nat)
    (msg : Option WSMessage) : ServiceState × List PresenceEvent :=
  match msg with
  | none => (st, [])
  | some m =>
    if m.type = "image" then
      match m.id with
      | none => (st, [])
      | some screenId =>
        if screenId = "" then (st, [])
        else
          let st1 := updateActivity st screenId true now
          if env screenId && truthy m.data then
            updateScreenStatus st1 (stripScreen screenId) true
          else (st1, [])
    else (st, [])

/-- A run of periodic sweeps: the `k`-th sweep fires at `t0 + k * CONFIG.activityCheck`. -/
def sweepRun (t0 : Nat) (st : ServiceState) : Nat → ServiceState × List PresenceEvent
  | 0 => (st, [])
  | k + 1 =>
    let p := sweepRun t0 st k
    let q := checkActivity p.1 (t0 + k * CONFIG.activityCheck)
    (q.1, p.2 ++ q.2)

/-- One failed-reconnect step: if a backoff timer is pending it fires, the
`connect` attempt fails to open, and the close handler reaches
`triggerReconnect` again; with no pending timer nothing happens. -/
def failStep (st : ServiceState) : ServiceState × Bool :=
  if st.reconnectTimeout.isSome then triggerReconnect st else (st, false)

/-- Iterate `failStep`, counting how often the exhausted condition is surfaced. -/
def failRun : Nat → ServiceState → ServiceState × Nat
  | 0, st => (st, 0)
  | n + 1, st =>
    let p := failStep st
    let q := failRun n p.1
    (q.1, (if p.2 then 1 else 0) + q.2)

/-- Occurrences of one presence event in a dispatch list. -/
def eventCount (e : PresenceEvent) (l : List PresenceEvent) : Nat :=
  l.countP (fun x => decide (x = e))

/-- Well-formed service state: tracker keys are distinct, their normalized
usernames are distinct, and the last-notified state agrees with each
record's online flag. -/
def Consistent (st : ServiceState) : Prop :=
  (keysOf st.activityTracker).Nodup ∧
  (st.activityTracker.map (fun p => normOf p.1)).Nodup ∧
  ∀ p ∈ st.activityTracker,
    getKey st.lastNotificationStatus (normOf p.1) = some p.2.isOnline

instance (st : ServiceState) : Decidable (Consistent st) := by
  unfold Consistent; infer_instance

/-! ### Association-list lemmas -/

theorem getKey_setKey_self {α : Type} (m : List (String × α)) (k : String) (v : α) :
    getKey (setKey m k v) k = some v := by
  induction m with
  | nil => simp [setKey, getKey]
  | cons p rest ih =>
    obtain ⟨k0, v0⟩ := p
    by_cases h : k0 = k
    · simp [setKey, h, getKey]
    · simp [setKey, h, getKey, ih]

theorem getKey_setKey_ne {α : Type} (m : List (String × α)) (k k' : String) (v : α)
    (h : k' ≠ k) : getKey (setKey m k v) k' = getKey m k' := by
  have h' : ¬(k = k') := fun hh => h hh.symm
  induction m with
  | nil => simp [setKey, getKey, h']
  | cons p rest ih =>
    obtain ⟨k0, v0⟩ := p
    by_cases hk : k0 = k
    · subst hk
      simp [setKey, getKey, h']
    · simp [setKey, hk, getKey, ih]

theorem keysOf_setKey_of_mem {α : Type} (m : List (String × α)) (k : String) (v : α) :
    k ∈ keysOf m → keysOf (setKey m k v) = keysOf m := by
  induction m with
  | nil => intro h; simp [keysOf] at h
  | cons p rest ih =>
    intro h
    obtain ⟨k0, v0⟩ := p
    by_cases hk : k0 = k
    · simp [setKey, hk, keysOf]
    · have h' : k ∈ keysOf rest := by
        simp [keysOf] at h
        rcases h with h | h
        · exact absurd h.symm hk
        · simpa [keysOf] using h
      simp only [setKey, if_neg hk, keysOf, List.map_cons]
      have := ih h'
      simp only [keysOf] at this
      rw [this]

theorem getKey_mem {α : Type} {m : List (String × α)} {k : String} {v : α}
    (h : getKey m k = some v) : (k, v) ∈ m := by
  induction m with
  | nil => simp [getKey] at h
  | cons p rest ih =>
    obtain ⟨k0, v0⟩ := p
    by_cases hk : k0 = k
    · subst hk
      simp [getKey] at h
      simp [h]
    · simp [getKey, hk] at h
      exact List.mem_cons_of_mem _ (ih h)

theorem mem_keysOf_of_mem {α : Type} {m : List (String × α)} {p : String × α}
    (h : p ∈ m) : p.1 ∈ keysOf m := List.mem_map_of_mem Prod.fst h

theorem getKey_of_mem_nodup {α : Type} {m : List (String × α)} {k : String} {v : α} :
    (keysOf m).Nodup → (k, v) ∈ m → getKey m k = some v := by
  induction m with
  | nil => intro _ h; simp at h
  | cons p rest ih =>
    intro hd h
    obtain ⟨k0, v0⟩ := p
    simp only [keysOf, List.map_cons, List.nodup_cons] at hd
    rcases List.mem_cons.mp h with h | h
    · obtain ⟨h1, h2⟩ := Prod.mk.injEq .. ▸ h
      subst h1; subst h2
      simp [getKey]
    · have hk : ¬(k0 = k) := by
        intro he
        subst he
        exact hd.1 (by simpa [keysOf] using mem_keysOf_of_mem h)
      simp only [getKey, if_neg hk]
      exact ih (by simpa [keysOf] using hd.2) h

theorem getKey_isSome_of_mem_keys {α : Type} {m : List (String × α)} {k : String} :
    k ∈ keysOf m → ∃ v, getKey m k = some v := by
  induction m with
  | nil => intro h; simp [keysOf] at h
  | cons p rest ih =>
    intro h
    obtain ⟨k0, v0⟩ := p
    by_cases hk : k0 = k
    · exact ⟨v0, by simp [getKey, hk]⟩
    · have h' : k ∈ keysOf rest := by
        simp [keysOf] at h
        rcases h with h | h
        · exact absurd h.symm hk
        · simpa [keysOf] using h
      simpa [getKey, hk] using ih h'

theorem setKey_of_getKey_eq {α : Type} {m : List (String × α)} {k : String} {v : α} :
    getKey m k = some v → setKey m k v = m := by
  induction m with
  | nil => intro h; simp [getKey] at h
  | cons p rest ih =>
    intro h
    obtain ⟨k0, v0⟩ := p
    by_cases hk : k0 = k
    · subst hk
      simp [getKey] at h
      simp [setKey, h]
    · simp [getKey, hk] at h
      simp [setKey, hk, ih h]

/-! ### Basic facts about the state operations -/

theorem updateScreenStatus_lastNotif (st : ServiceState) (u : String) (b : Bool) :
    (updateScreenStatus st u b).1.lastNotificationStatus =
      setKey st.lastNotificationStatus (toLowerCase u) b := by
  unfold updateScreenStatus
  by_cases h : getKey st.lastNotificationStatus (toLowerCase u) = some b
  · simp only [h, if_pos rfl]
    exact (setKey_of_getKey_eq h).symm
  · simp [h]

theorem updateScreenStatus_noop (st : ServiceState) (u : String) (b : Bool)
    (h : getKey st.lastNotificationStatus (toLowerCase u) = some b) :
    updateScreenStatus st u b = (st, []) := by
  unfold updateScreenStatus
  simp [h]

theorem updateScreenStatus_events (st : ServiceState) (u : String) (b : Bool) :
    (updateScreenStatus st u b).2 =
      if getKey st.lastNotificationStatus (toLowerCase u) = some b then []
      else [(toLowerCase u, b)] := by
  unfold updateScreenStatus
  by_cases h : getKey st.lastNotificationStatus (toLowerCase u) = some b <;> simp [h]

theorem updateScreenStatus_tracker (st : ServiceState) (u : String) (b : Bool) :
    (updateScreenStatus st u b).1.activityTracker = st.activityTracker := by
  unfold updateScreenStatus
  by_cases h : getKey st.lastNotificationStatus (toLowerCase u) = some b <;> simp [h]

theorem updateScreenStatus_fields (st : ServiceState) (u : String) (b : Bool) :
    (updateScreenStatus st u b).1.socketOpen = st.socketOpen ∧
    (updateScreenStatus st u b).1.reconnectAttempts = st.reconnectAttempts ∧
    (updateScreenStatus st u b).1.reconnectTimeout = st.reconnectTimeout ∧
    (updateScreenStatus st u b).1.pingInterval = st.pingInterval ∧
    (updateScreenStatus st u b).1.activityCheckInterval = st.activityCheckInterval := by
  unfold updateScreenStatus
  by_cases h : getKey st.lastNotificationStatus (toLowerCase u) = some b <;> simp [h]

theorem updateActivity_tracker (st : ServiceState) (s : String) (b : Bool) (now : Nat) :
    (updateActivity st s b now).activityTracker =
      setKey st.activityTracker s { lastUpdate := now, isOnline := b } := rfl

theorem updateActivity_lastNotif (st : ServiceState) (s : String) (b : Bool) (now : Nat) :
    (updateActivity st s b now).lastNotificationStatus = st.lastNotificationStatus := rfl

theorem norm_eq (s : String) : toLowerCase (stripScreen s) = normOf s := rfl

/-! ### Sweep lemmas -/

theorem sweepGo_fields (now : Nat) (l : List (String × Activity)) (st : ServiceState) :
    (sweepGo now l st).1.socketOpen = st.socketOpen ∧
    (sweepGo now l st).1.reconnectAttempts = st.reconnectAttempts ∧
    (sweepGo now l st).1.reconnectTimeout = st.reconnectTimeout ∧
    (sweepGo now l st).1.pingInterval = st.pingInterval ∧
    (sweepGo now l st).1.activityCheckInterval = st.activityCheckInterval := by
  induction l generalizing st with
  | nil => simp [sweepGo]
  | cons p rest ih =>
    obtain ⟨k, a⟩ := p
    by_cases hst : staleAt now a
    · simp only [sweepGo, if_pos hst]
      refine ⟨?_, ?_, ?_, ?_, ?_⟩ <;>
        simp [(ih _).1, (ih _).2.1, (ih _).2.2.1, (ih _).2.2.2.1, (ih _).2.2.2.2,
          (updateScreenStatus_fields _ _ _).1, (updateScreenStatus_fields _ _ _).2.1,
          (updateScreenStatus_fields _ _ _).2.2.1, (updateScreenStatus_fields _ _ _).2.2.2.1,
          (updateScreenStatus_fields _ _ _).2.2.2.2, updateActivity]
    · simp only [sweepGo, if_neg hst]
      exact ih st

theorem sweepGo_tracker_untouched (now : Nat) (l : List (String × Activity))
    (st : ServiceState) (s : String) (h : ∀ p ∈ l, p.1 ≠ s) :
    getKey (sweepGo now l st).1.activityTracker s = getKey st.activityTracker s := by
  induction l generalizing st with
  | nil => simp [sweepGo]
  | cons p rest ih =>
    obtain ⟨k, a⟩ := p
    have hk : k ≠ s := h (k, a) (List.mem_cons_self _ _)
    have hrest : ∀ p ∈ rest, p.1 ≠ s := fun p hp => h p (List.mem_cons_of_mem _ hp)
    by_cases hst : staleAt now a
    · simp only [sweepGo, if_pos hst]
      rw [ih _ hrest, updateScreenStatus_tracker, updateActivity_tracker,
        getKey_setKey_ne _ _ _ _ (fun hh => hk hh.symm)]
    · simp only [sweepGo, if_neg hst]
      exact ih st hrest

theorem sweepGo_tracker_stale (now : Nat) (l : List (String × Activity))
    (st : ServiceState) (s : String) (a : Activity)
    (hd : (l.map Prod.fst).Nodup) (hmem : (s, a) ∈ l) (hst : staleAt now a = true) :
    getKey (sweepGo now l st).1.activityTracker s =
      some { lastUpdate := now, isOnline := false } := by
  induction l generalizing st with
  | nil => simp at hmem
  | cons p rest ih =>
    obtain ⟨k, b⟩ := p
    simp only [List.map_cons, List.nodup_cons] at hd
    rcases List.mem_cons.mp hmem with h | h
    · obtain ⟨h1, h2⟩ := Prod.mk.injEq .. ▸ h
      subst h1; subst h2
      simp only [sweepGo, if_pos hst]
      have hrest : ∀ p ∈ rest, p.1 ≠ s := by
        intro p hp he
        exact hd.1 (he ▸ List.mem_map_of_mem Prod.fst hp)
      rw [sweepGo_tracker_untouched _ _ _ _ hrest, updateScreenStatus_tracker,
        updateActivity_tracker, getKey_setKey_self]
    · have hk : k ≠ s := by
        intro he
        exact hd.1 (he ▸ List.mem_map_of_mem Prod.fst h)
      by_cases hstb : staleAt now b
      · simp only [sweepGo, if_pos hstb]
        exact ih _ hd.2 h
      · simp only [sweepGo, if_neg hstb]
        exact ih st hd.2 h

theorem sweepGo_tracker_notstale (now : Nat) (l : List (String × Activity))
    (st : ServiceState) (s : String)
    (h : ∀ p ∈ l, p.1 = s → staleAt now p.2 = false) :
    getKey (sweepGo now l st).1.activityTracker s = getKey st.activityTracker s := by
  induction l generalizing st with
  | nil => simp [sweepGo]
  | cons p rest ih =>
    obtain ⟨k, b⟩ := p
    have hrest : ∀ p ∈ rest, p.1 = s → staleAt now p.2 = false :=
      fun p hp => h p (List.mem_cons_of_mem _ hp)
    by_cases hst : staleAt now b
    · have hk : k ≠ s := by
        intro he
        rw [h (k, b) (List.mem_cons_self _ _) he] at hst
        exact Bool.false_ne_true hst
      simp only [sweepGo, if_pos hst]
      rw [ih _ hrest, updateScreenStatus_tracker, updateActivity_tracker,
        getKey_setKey_ne _ _ _ _ (fun hh => hk hh.symm)]
    · simp only [sweepGo, if_neg hst]
      exact ih st hrest

theorem sweepGo_lastNotif_untouched (now : Nat) (l : List (String × Activity))
    (st : ServiceState) (n : String)
    (h : ∀ p ∈ l, staleAt now p.2 = true → normOf p.1 ≠ n) :
    getKey (sweepGo now l st).1.lastNotificationStatus n =
      getKey st.lastNotificationStatus n := by
  induction l generalizing st with
  | nil => simp [sweepGo]
  | cons p rest ih =>
    obtain ⟨k, a⟩ := p
    have hrest : ∀ p ∈ rest, staleAt now p.2 = true → normOf p.1 ≠ n :=
      fun p hp => h p (List.mem_cons_of_mem _ hp)
    by_cases hst : staleAt now a
    · have hk : normOf k ≠ n := h (k, a) (List.mem_cons_self _ _) hst
      simp only [sweepGo, if_pos hst]
      rw [ih _ hrest, updateScreenStatus_lastNotif, updateActivity_lastNotif, norm_eq,
        getKey_setKey_ne _ _ _ _ (fun hh => hk hh.symm)]
    · simp only [sweepGo, if_neg hst]
      exact ih st hrest

theorem sweepGo_lastNotif_stale (now : Nat) (l : List (String × Activity))
    (st : ServiceState) (s : String) (a : Activity)
    (hd : (l.map (fun p => normOf p.1)).Nodup) (hmem : (s, a) ∈ l)
    (hst : staleAt now a = true) :
    getKey (sweepGo now l st).1.lastNotificationStatus (normOf s) = some false := by
  induction l generalizing st with
  | nil => simp at hmem
  | cons p rest ih =>
    obtain ⟨k, b⟩ := p
    simp only [List.map_cons, List.nodup_cons] at hd
    rcases List.mem_cons.mp hmem with h | h
    · obtain ⟨h1, h2⟩ := Prod.mk.injEq .. ▸ h
      subst h1; subst h2
      simp only [sweepGo, if_pos hst]
      have hrest : ∀ p ∈ rest, staleAt now p.2 = true → normOf p.1 ≠ normOf s := by
        intro p hp _ he
        exact hd.1 (he ▸ List.mem_map_of_mem (fun p => normOf p.1) hp)
      rw [sweepGo_lastNotif_untouched _ _ _ _ hrest, updateScreenStatus_lastNotif,
        updateActivity_lastNotif, norm_eq, getKey_setKey_self]
    · by_cases hstb : staleAt now b
      · simp only [sweepGo, if_pos hstb]
        exact ih _ hd.2 h
      · simp only [sweepGo, if_neg hstb]
        exact ih st hd.2 h

theorem staleAt_isOnline {now : Nat} {a : Activity} (h : staleAt now a = true) :
    a.isOnline = true := by
  unfold staleAt at h
  exact (Bool.and_eq_true _ _ ▸ h).1

theorem sweepGo_events (now : Nat) (l : List (String × Activity)) (st : ServiceState)
    (hd : (l.map (fun p => normOf p.1)).Nodup)
    (hc : ∀ p ∈ l, getKey st.lastNotificationStatus (normOf p.1) = some p.2.isOnline) :
    (sweepGo now l st).2 =
      (l.filter (fun p => staleAt now p.2)).map (fun p => (normOf p.1, false)) := by
  induction l generalizing st with
  | nil => simp [sweepGo]
  | cons p rest ih =>
    obtain ⟨k, b⟩ := p
    simp only [List.map_cons, List.nodup_cons] at hd
    by_cases hst : staleAt now b
    · have hb : b.isOnline = true := staleAt_isOnline hst
      have hck : getKey st.lastNotificationStatus (normOf k) = some true := by
        have := hc (k, b) (List.mem_cons_self _ _)
        rwa [hb] at this
      simp only [sweepGo, if_pos hst]
      have hcond :
          ¬ getKey (updateActivity st k false now).lastNotificationStatus
              (toLowerCase (stripScreen k)) = some false := by
        rw [updateActivity_lastNotif, norm_eq, hck]
        simp
      have hevents : (updateScreenStatus (updateActivity st k false now) (stripScreen k) false).2 =
          [(normOf k, false)] := by
        rw [updateScreenStatus_events]
        simp only [if_neg hcond]
        rw [norm_eq]
      have hnotif : (updateScreenStatus (updateActivity st k false now) (stripScreen k) false).1.lastNotificationStatus =
          setKey st.lastNotificationStatus (normOf k) false := by
        rw [updateScreenStatus_lastNotif, updateActivity_lastNotif, norm_eq]
      have hc' : ∀ p ∈ rest,
          getKey (updateScreenStatus (updateActivity st k false now) (stripScreen k) false).1.lastNotificationStatus
            (normOf p.1) = some p.2.isOnline := by
        intro p hp
        have hne : normOf p.1 ≠ normOf k := by
          intro he
          exact hd.1 (he ▸ List.mem_map_of_mem (fun p => normOf p.1) hp)
        rw [hnotif, getKey_setKey_ne _ _ _ _ hne]
        exact hc p (List.mem_cons_of_mem _ hp)
      have hfil : List.filter (fun p => staleAt now p.2) ((k, b) :: rest) =
          (k, b) :: List.filter (fun p => staleAt now p.2) rest := by
        simp [List.filter_cons, hst]
      rw [hfil, List.map_cons]
      show (updateScreenStatus (updateActivity st k false now) (stripScreen k) false).2 ++
          (sweepGo now rest (updateScreenStatus (updateActivity st k false now) (stripScreen k) false).1).2 = _
      rw [hevents, ih _ hd.2 hc']
      rfl
    · have hfil : List.filter (fun p => staleAt now p.2) ((k, b) :: rest) =
          List.filter (fun p => staleAt now p.2) rest := by
        simp [List.filter_cons, hst]
      simp only [sweepGo, if_neg hst]
      rw [hfil]
      exact ih st hd.2 (fun p hp => hc p (List.mem_cons_of_mem _ hp))

theorem sweepGo_keysOf (now : Nat) (l : List (String × Activity)) (st : ServiceState)
    (h : ∀ p ∈ l, p.1 ∈ keysOf st.activityTracker) :
    keysOf (sweepGo now l st).1.activityTracker = keysOf st.activityTracker := by
  induction l generalizing st with
  | nil => simp [sweepGo]
  | cons p rest ih =>
    obtain ⟨k, a⟩ := p
    have hk : k ∈ keysOf st.activityTracker := h (k, a) (List.mem_cons_self _ _)
    by_cases hst : staleAt now a
    · simp only [sweepGo, if_pos hst]
      have htr : (updateScreenStatus (updateActivity st k false now) (stripScreen k) false).1.activityTracker =
          setKey st.activityTracker k { lastUpdate := now, isOnline := false } := by
        rw [updateScreenStatus_tracker, updateActivity_tracker]
      have hkeys : keysOf (updateScreenStatus (updateActivity st k false now) (stripScreen k) false).1.activityTracker =
          keysOf st.activityTracker := by
        rw [htr, keysOf_setKey_of_mem _ _ _ hk]
      rw [ih _ ?_, hkeys]
      intro p hp
      rw [hkeys]
      exact h p (List.mem_cons_of_mem _ hp)
    · simp only [sweepGo, if_neg hst]
      exact ih st (fun p hp => h p (List.mem_cons_of_mem _ hp))

/-! ### Counting dispatched events -/

theorem eventCount_append (e : PresenceEvent) (l1 l2 : List PresenceEvent) :
    eventCount e (l1 ++ l2) = eventCount e l1 + eventCount e l2 := by
  unfold eventCount
  exact List.countP_append _ _ _

theorem eventCount_eq_zero (e : PresenceEvent) (l : List PresenceEvent)
    (h : ∀ x ∈ l, x ≠ e) : eventCount e l = 0 := by
  unfold eventCount
  rw [List.countP_eq_zero]
  intro a ha
  simp only [decide_eq_true_eq]
  exact h a ha

theorem eventCount_map_norm_zero (n : String) (l : List (String × Activity))
    (h : ∀ p ∈ l, normOf p.1 ≠ n) :
    eventCount (n, false) (l.map (fun p => (normOf p.1, false))) = 0 := by
  apply eventCount_eq_zero
  intro x hx
  obtain ⟨p, hp, hpx⟩ := List.mem_map.mp hx
  intro he
  exact h p hp (by rw [← hpx] at he; exact congrArg Prod.fst he)

theorem eventCount_map_norm_one (s : String) (l : List (String × Activity))
    (hmem : s ∈ l.map Prod.fst) (hd : (l.map (fun p => normOf p.1)).Nodup) :
    eventCount (normOf s, false) (l.map (fun p => (normOf p.1, false))) = 1 := by
  induction l with
  | nil => simp at hmem
  | cons p rest ih =>
    obtain ⟨k, a⟩ := p
    simp only [List.map_cons, List.nodup_cons] at hd
    rcases List.mem_cons.mp hmem with h | h
    · subst h
      simp only [List.map_cons]
      have hz : eventCount (normOf s, false) (rest.map (fun p => (normOf p.1, false))) = 0 := by
        apply eventCount_map_norm_zero
        intro p hp he
        exact hd.1 (he ▸ List.mem_map_of_mem (fun p => normOf p.1) hp)
      unfold eventCount at hz ⊢
      rw [List.countP_cons, hz]
      simp
    · have hkn : normOf k ≠ normOf s := by
        intro he
        obtain ⟨q, hq, hqs⟩ := List.mem_map.mp h
        apply hd.1
        rw [he]
        exact hqs ▸ List.mem_map_of_mem (fun p => normOf p.1) hq
      simp only [List.map_cons]
      unfold eventCount at ih ⊢
      rw [List.countP_cons]
      have : (decide (((normOf k, false) : PresenceEvent) = (normOf s, false))) = false := by
        simp [hkn]
      rw [this]
      simp only [Bool.false_eq_true, if_false, Nat.add_zero]
      exact ih h hd.2

/-! ### Single-sweep facts under a well-formed state -/

theorem norms_eq_map_keys (l : List (String × Activity)) :
    l.map (fun p => normOf p.1) = (keysOf l).map normOf := by
  simp [keysOf, List.map_map]

theorem norm_inj_on {l : List (String × Activity)} {p q : String × Activity}
    (hd : (l.map (fun p => normOf p.1)).Nodup) (hp : p ∈ l) (hq : q ∈ l)
    (he : normOf p.1 = normOf q.1) : p = q :=
  List.inj_on_of_nodup_map hd hp hq he

theorem checkActivity_stale (st : ServiceState) (now : Nat) (s : String) (a : Activity)
    (hC : Consistent st) (hget : getKey st.activityTracker s = some a)
    (hst : staleAt now a = true) :
    getKey (checkActivity st now).1.activityTracker s =
        some { lastUpdate := now, isOnline := false } ∧
      eventCount (normOf s, false) (checkActivity st now).2 = 1 := by
  obtain ⟨hk, hn, hc⟩ := hC
  have hmem : (s, a) ∈ st.activityTracker := getKey_mem hget
  constructor
  · exact sweepGo_tracker_stale now st.activityTracker st s a hk hmem hst
  · unfold checkActivity
    rw [sweepGo_events now st.activityTracker st hn hc]
    apply eventCount_map_norm_one
    · exact List.mem_map_of_mem Prod.fst (List.mem_filter.mpr ⟨hmem, hst⟩)
    · exact List.Nodup.sublist (List.Sublist.map _ (List.filter_sublist _)) hn

theorem checkActivity_notstale (st : ServiceState) (now : Nat) (s : String) (a : Activity)
    (hC : Consistent st) (hget : getKey st.activityTracker s = some a)
    (hst : staleAt now a = false) :
    getKey (checkActivity st now).1.activityTracker s = some a ∧
      eventCount (normOf s, false) (checkActivity st now).2 = 0 := by
  obtain ⟨hk, hn, hc⟩ := hC
  have hmem : (s, a) ∈ st.activityTracker := getKey_mem hget
  have honly : ∀ p ∈ st.activityTracker, p.1 = s → staleAt now p.2 = false := by
    intro p hp he
    have : getKey st.activityTracker p.1 = some p.2 := getKey_of_mem_nodup hk (Prod.mk.eta ▸ hp)
    rw [he, hget] at this
    have ha : p.2 = a := by injection this.symm
    rw [ha]
    exact hst
  constructor
  · unfold checkActivity
    rw [sweepGo_tracker_notstale now st.activityTracker st s honly]
    exact hget
  · unfold checkActivity
    rw [sweepGo_events now st.activityTracker st hn hc]
    apply eventCount_map_norm_zero
    intro p hp he
    have hpl : p ∈ st.activityTracker := (List.mem_filter.mp hp).1
    have hpst : staleAt now p.2 = true := by simpa using (List.mem_filter.mp hp).2
    have : p = (s, a) := norm_inj_on hn hpl hmem he
    rw [this] at hpst
    simp only at hpst
    rw [honly (s, a) hmem rfl] at hpst
    exact absurd hpst (by simp)

theorem checkActivity_consistent (st : ServiceState) (now : Nat)
    (hC : Consistent st) : Consistent (checkActivity st now).1 := by
  obtain ⟨hk, hn, hc⟩ := hC
  have hkeys : keysOf (checkActivity st now).1.activityTracker = keysOf st.activityTracker := by
    unfold checkActivity
    exact sweepGo_keysOf now st.activityTracker st (fun p hp => mem_keysOf_of_mem hp)
  refine ⟨?_, ?_, ?_⟩
  · rw [hkeys]; exact hk
  · rw [norms_eq_map_keys, hkeys, ← norms_eq_map_keys]; exact hn
  · intro p' hp'
    have hk' : (keysOf (checkActivity st now).1.activityTracker).Nodup := by rw [hkeys]; exact hk
    have hget' : getKey (checkActivity st now).1.activityTracker p'.1 = some p'.2 :=
      getKey_of_mem_nodup hk' (Prod.mk.eta ▸ hp')
    have hmemk : p'.1 ∈ keysOf st.activityTracker := by
      rw [← hkeys]; exact mem_keysOf_of_mem hp'
    obtain ⟨a0, ha0⟩ := getKey_isSome_of_mem_keys hmemk
    have hmem0 : (p'.1, a0) ∈ st.activityTracker := getKey_mem ha0
    by_cases hst : staleAt now a0
    · have htr := sweepGo_tracker_stale now st.activityTracker st p'.1 a0 hk hmem0 hst
      have hp2 : p'.2 = { lastUpdate := now, isOnline := false } := by
        unfold checkActivity at hget'
        rw [htr] at hget'
        injection hget'.symm
      have hln := sweepGo_lastNotif_stale now st.activityTracker st p'.1 a0 hn hmem0 hst
      unfold checkActivity
      rw [hln, hp2]
    · have honly : ∀ p ∈ st.activityTracker, p.1 = p'.1 → staleAt now p.2 = false := by
        intro p hp he
        have hgp : getKey st.activityTracker p.1 = some p.2 := getKey_of_mem_nodup hk (Prod.mk.eta ▸ hp)
        rw [he, ha0] at hgp
        have ha : p.2 = a0 := by injection hgp.symm
        rw [ha]
        exact Bool.not_eq_true _ ▸ hst
      have htr := sweepGo_tracker_notstale now st.activityTracker st p'.1 honly
      have hp2 : p'.2 = a0 := by
        unfold checkActivity at hget'
        rw [htr, ha0] at hget'
        injection hget'.symm
      have huntouched : ∀ p ∈ st.activityTracker, staleAt now p.2 = true → normOf p.1 ≠ normOf p'.1 := by
        intro p hp hpst he
        have : p = (p'.1, a0) := norm_inj_on hn hp hmem0 he
        rw [this] at hpst
        simp only at hpst
        rw [honly (p'.1, a0) hmem0 rfl] at hpst
        exact absurd hpst (by simp)
      have hln := sweepGo_lastNotif_untouched now st.activityTracker st (normOf p'.1) huntouched
      unfold checkActivity
      rw [hln, hp2]
      exact hc (p'.1, a0) hmem0

/-! ### Runs of periodic sweeps -/

theorem eventCount_nil (e : PresenceEvent) : eventCount e [] = 0 := rfl

theorem sweepRun_add (t0 n m : Nat) (st : ServiceState) :
    sweepRun t0 st (n + m) =
      ((sweepRun (t0 + n * CONFIG.activityCheck) (sweepRun t0 st n).1 m).1,
       (sweepRun t0 st n).2 ++ (sweepRun (t0 + n * CONFIG.activityCheck) (sweepRun t0 st n).1 m).2) := by
  induction m with
  | zero => simp [sweepRun]
  | succ m ih =>
    show sweepRun t0 st (n + m + 1) = _
    simp only [sweepRun]
    rw [ih]
    have harith : t0 + (n + m) * CONFIG.activityCheck =
        t0 + n * CONFIG.activityCheck + m * CONFIG.activityCheck := by ring
    rw [harith, List.append_assoc]

theorem sweepRun_before (t0 L : Nat) (s : String) (m : Nat) (st : ServiceState)
    (hC : Consistent st)
    (hget : getKey st.activityTracker s = some { lastUpdate := L, isOnline := true })
    (hticks : ∀ j < m, t0 + j * CONFIG.activityCheck ≤ L + CONFIG.offline) :
    Consistent (sweepRun t0 st m).1 ∧
      getKey (sweepRun t0 st m).1.activityTracker s =
        some { lastUpdate := L, isOnline := true } ∧
      eventCount (normOf s, false) (sweepRun t0 st m).2 = 0 := by
  induction m with
  | zero => exact ⟨hC, hget, rfl⟩
  | succ m ih =>
    obtain ⟨ihC, ihget, ihcount⟩ := ih (fun j hj => hticks j (Nat.lt_succ_of_lt hj))
    have htick : t0 + m * CONFIG.activityCheck ≤ L + CONFIG.offline :=
      hticks m (Nat.lt_succ_self m)
    have hstale : staleAt (t0 + m * CONFIG.activityCheck)
        { lastUpdate := L, isOnline := true } = false := by
      simp only [staleAt]
      simp only [Bool.true_and]
      rw [decide_eq_false_iff_not]
      omega
    obtain ⟨htr, hev⟩ := checkActivity_notstale _ _ _ _ ihC ihget hstale
    refine ⟨checkActivity_consistent _ _ ihC, ?_, ?_⟩
    · show getKey (checkActivity (sweepRun t0 st m).1 (t0 + m * CONFIG.activityCheck)).1.activityTracker s = _
      exact htr
    · show eventCount (normOf s, false)
        ((sweepRun t0 st m).2 ++
          (checkActivity (sweepRun t0 st m).1 (t0 + m * CONFIG.activityCheck)).2) = 0
      rw [eventCount_append, ihcount, hev]

theorem sweepRun_after (t0 T : Nat) (s : String) (m : Nat) (st : ServiceState)
    (hC : Consistent st)
    (hget : getKey st.activityTracker s = some { lastUpdate := T, isOnline := false }) :
    Consistent (sweepRun t0 st m).1 ∧
      getKey (sweepRun t0 st m).1.activityTracker s =
        some { lastUpdate := T, isOnline := false } ∧
      eventCount (normOf s, false) (sweepRun t0 st m).2 = 0 := by
  induction m with
  | zero => exact ⟨hC, hget, rfl⟩
  | succ m ih =>
    obtain ⟨ihC, ihget, ihcount⟩ := ih
    have hstale : staleAt (t0 + m * CONFIG.activityCheck)
        { lastUpdate := T, isOnline := false } = false := by
      simp [staleAt]
    obtain ⟨htr, hev⟩ := checkActivity_notstale _ _ _ _ ihC ihget hstale
    refine ⟨checkActivity_consistent _ _ ihC, ?_, ?_⟩
    · show getKey (checkActivity (sweepRun t0 st m).1 (t0 + m * CONFIG.activityCheck)).1.activityTracker s = _
      exact htr
    · show eventCount (normOf s, false)
        ((sweepRun t0 st m).2 ++
          (checkActivity (sweepRun t0 st m).1 (t0 + m * CONFIG.activityCheck)).2) = 0
      rw [eventCount_append, ihcount, hev]

theorem sweepRun_exactly_once (t0 L : Nat) (s : String) (st : ServiceState)
    (hC : Consistent st)
    (hget : getKey st.activityTracker s = some { lastUpdate := L, isOnline := true })
    (ht0 : t0 ≤ L + CONFIG.offline) :
    ∃ k, CONFIG.offline < (t0 + k * CONFIG.activityCheck) - L ∧
      t0 + k * CONFIG.activityCheck ≤ L + CONFIG.offline + CONFIG.activityCheck ∧
      ∀ m, k < m → eventCount (normOf s, false) (sweepRun t0 st m).2 = 1 := by
  have hoff : CONFIG.offline = 3000 := rfl
  have hac : CONFIG.activityCheck = 1000 := rfl
  refine ⟨(L + CONFIG.offline - t0) / CONFIG.activityCheck + 1, ?_, ?_, ?_⟩
  · simp only [hoff, hac] at ht0 ⊢
    omega
  · simp only [hoff, hac] at ht0 ⊢
    omega
  · intro m hm
    set k := (L + CONFIG.offline - t0) / CONFIG.activityCheck + 1 with hk
    have hticks : ∀ j < k, t0 + j * CONFIG.activityCheck ≤ L + CONFIG.offline := by
      intro j hj
      simp only [hk, hoff, hac] at ht0 hj ⊢
      omega
    obtain ⟨hC1, hget1, hcount1⟩ := sweepRun_before t0 L s k st hC hget hticks
    have hstale : staleAt (t0 + k * CONFIG.activityCheck)
        { lastUpdate := L, isOnline := true } = true := by
      simp only [staleAt]
      simp only [Bool.true_and]
      rw [decide_eq_true_eq]
      simp only [hk, hoff, hac] at ht0 ⊢
      omega
    obtain ⟨htr2, hev2⟩ := checkActivity_stale _ _ _ _ hC1 hget1 hstale
    have hC2 : Consistent (checkActivity (sweepRun t0 st k).1 (t0 + k * CONFIG.activityCheck)).1 :=
      checkActivity_consistent _ _ hC1
    have hm' : m = (k + 1) + (m - (k + 1)) := by omega
    rw [hm', sweepRun_add]
    rw [eventCount_append]
    have hfirst : eventCount (normOf s, false) (sweepRun t0 st (k + 1)).2 = 1 := by
      show eventCount (normOf s, false)
        ((sweepRun t0 st k).2 ++
          (checkActivity (sweepRun t0 st k).1 (t0 + k * CONFIG.activityCheck)).2) = 1
      rw [eventCount_append, hcount1, hev2]
    have hstate : (sweepRun t0 st (k + 1)).1 =
        (checkActivity (sweepRun t0 st k).1 (t0 + k * CONFIG.activityCheck)).1 := rfl
    have hrest : eventCount (normOf s, false)
        (sweepRun (t0 + (k + 1) * CONFIG.activityCheck) (sweepRun t0 st (k + 1)).1 (m - (k + 1))).2 = 0 := by
      rw [hstate]
      exact (sweepRun_after (t0 + (k + 1) * CONFIG.activityCheck)
        (t0 + k * CONFIG.activityCheck) s (m - (k + 1)) _ hC2 htr2).2.2
    rw [hfirst, hrest]

/-! ### Offline-broadcast on close / disconnect -/

theorem notifyGo_fields (ks : List String) (st : ServiceState) :
    (notifyGo ks st).1.socketOpen = st.socketOpen ∧
    (notifyGo ks st).1.reconnectAttempts = st.reconnectAttempts ∧
    (notifyGo ks st).1.reconnectTimeout = st.reconnectTimeout ∧
    (notifyGo ks st).1.pingInterval = st.pingInterval ∧
    (notifyGo ks st).1.activityCheckInterval = st.activityCheckInterval ∧
    (notifyGo ks st).1.activityTracker = st.activityTracker := by
  induction ks generalizing st with
  | nil => simp [notifyGo]
  | cons k rest ih =>
    simp only [notifyGo]
    have hf := updateScreenStatus_fields st (stripScreen k) false
    have ht := updateScreenStatus_tracker st (stripScreen k) false
    refine ⟨?_, ?_, ?_, ?_, ?_, ?_⟩ <;>
      simp [(ih _).1, (ih _).2.1, (ih _).2.2.1, (ih _).2.2.2.1, (ih _).2.2.2.2.1,
        (ih _).2.2.2.2.2, hf.1, hf.2.1, hf.2.2.1, hf.2.2.2.1, hf.2.2.2.2, ht]

theorem notifyGo_events (l : List (String × Activity)) (st : ServiceState)
    (hd : (l.map (fun p => normOf p.1)).Nodup)
    (hc : ∀ p ∈ l, getKey st.lastNotificationStatus (normOf p.1) = some p.2.isOnline) :
    (notifyGo (keysOf l) st).2 =
      (l.filter (fun p => p.2.isOnline)).map (fun p => (normOf p.1, false)) := by
  induction l generalizing st with
  | nil => simp [keysOf, notifyGo]
  | cons p rest ih =>
    obtain ⟨k, a⟩ := p
    simp only [List.map_cons, List.nodup_cons] at hd
    have hkeys : keysOf ((k, a) :: rest) = k :: keysOf rest := rfl
    rw [hkeys]
    by_cases hon : a.isOnline
    · have hck : getKey st.lastNotificationStatus (normOf k) = some true := by
        have := hc (k, a) (List.mem_cons_self _ _)
        rwa [hon] at this
      have hcond : ¬ getKey st.lastNotificationStatus (toLowerCase (stripScreen k)) = some false := by
        rw [norm_eq, hck]
        simp
      have hevents : (updateScreenStatus st (stripScreen k) false).2 = [(normOf k, false)] := by
        rw [updateScreenStatus_events]
        simp only [if_neg hcond]
        rw [norm_eq]
      have hnotif : (updateScreenStatus st (stripScreen k) false).1.lastNotificationStatus =
          setKey st.lastNotificationStatus (normOf k) false := by
        rw [updateScreenStatus_lastNotif, norm_eq]
      have hc' : ∀ p ∈ rest,
          getKey (updateScreenStatus st (stripScreen k) false).1.lastNotificationStatus
            (normOf p.1) = some p.2.isOnline := by
        intro p hp
        have hne : normOf p.1 ≠ normOf k := by
          intro he
          exact hd.1 (he ▸ List.mem_map_of_mem (fun p => normOf p.1) hp)
        rw [hnotif, getKey_setKey_ne _ _ _ _ hne]
        exact hc p (List.mem_cons_of_mem _ hp)
      have hfil : List.filter (fun p => p.2.isOnline) ((k, a) :: rest) =
          (k, a) :: List.filter (fun p => p.2.isOnline) rest := by
        simp [List.filter_cons, hon]
      rw [hfil, List.map_cons]
      show (updateScreenStatus st (stripScreen k) false).2 ++
          (notifyGo (keysOf rest) (updateScreenStatus st (stripScreen k) false).1).2 = _
      rw [hevents, ih _ hd.2 hc']
      rfl
    · have hck : getKey st.lastNotificationStatus (normOf k) = some false := by
        have h0 := hc (k, a) (List.mem_cons_self _ _)
        have hof : a.isOnline = false := by simpa using hon
        simpa [hof] using h0
      have hnoop : updateScreenStatus st (stripScreen k) false = (st, []) :=
        updateScreenStatus_noop st (stripScreen k) false (by rw [norm_eq]; exact hck)
      have hfil : List.filter (fun p => p.2.isOnline) ((k, a) :: rest) =
          List.filter (fun p => p.2.isOnline) rest := by
        simp [List.filter_cons, hon]
      rw [hfil]
      show (updateScreenStatus st (stripScreen k) false).2 ++
          (notifyGo (keysOf rest) (updateScreenStatus st (stripScreen k) false).1).2 = _
      rw [hnoop]
      simpa using ih st hd.2 (fun p hp => hc p (List.mem_cons_of_mem _ hp))

/-! ### Reconnect lemmas -/

theorem triggerReconnect_incr (st : ServiceState)
    (h : st.reconnectAttempts < CONFIG.maxReconnectAttempts) :
    (triggerReconnect st).1.reconnectAttempts = st.reconnectAttempts + 1 ∧
    (triggerReconnect st).1.reconnectTimeout = some (delayMs (st.reconnectAttempts + 1)) ∧
    (triggerReconnect st).2 = false := by
  unfold triggerReconnect
  simp [h]

theorem triggerReconnect_exhaust (st : ServiceState)
    (h : ¬ st.reconnectAttempts < CONFIG.maxReconnectAttempts) :
    (triggerReconnect st).1.reconnectTimeout = none ∧
    (triggerReconnect st).1.reconnectAttempts = st.reconnectAttempts ∧
    (triggerReconnect st).2 = true := by
  unfold triggerReconnect
  simp [h]

theorem triggerReconnect_fields (st : ServiceState) :
    (triggerReconnect st).1.pingInterval = st.pingInterval ∧
    (triggerReconnect st).1.activityCheckInterval = st.activityCheckInterval ∧
    (triggerReconnect st).1.socketOpen = st.socketOpen ∧
    (triggerReconnect st).1.activityTracker = st.activityTracker ∧
    (triggerReconnect st).1.lastNotificationStatus = st.lastNotificationStatus := by
  unfold triggerReconnect
  by_cases h : st.reconnectAttempts < CONFIG.maxReconnectAttempts <;> simp [h]

theorem failRun_none (m : Nat) (st : ServiceState) (h : st.reconnectTimeout = none) :
    failRun m st = (st, 0) := by
  induction m with
  | zero => rfl
  | succ m ih =>
    have hstep : failStep st = (st, false) := by
      unfold failStep
      simp [h]
    show ((failRun m (failStep st).1).1, (if (failStep st).2 then 1 else 0) + (failRun m (failStep st).1).2) = _
    rw [hstep]
    simp [ih]

theorem failRun_countdown (j : Nat) : ∀ (m : Nat) (st : ServiceState),
    st.reconnectTimeout.isSome = true →
    st.reconnectAttempts + j = CONFIG.maxReconnectAttempts →
    (failRun (j + 1 + m) st).1.reconnectTimeout = none ∧
    (failRun (j + 1 + m) st).1.reconnectAttempts = CONFIG.maxReconnectAttempts ∧
    (failRun (j + 1 + m) st).2 = 1 := by
  induction j with
  | zero =>
    intro m st htimer hcnt
    have hstep : failStep st = triggerReconnect st := by
      unfold failStep
      simp [htimer]
    have hnotlt : ¬ st.reconnectAttempts < CONFIG.maxReconnectAttempts := by omega
    obtain ⟨he1, he2, he3⟩ := triggerReconnect_exhaust st hnotlt
    have hidx : 0 + 1 + m = m + 1 := by omega
    rw [hidx]
    simp only [failRun, hstep]
    rw [failRun_none m _ he1]
    refine ⟨he1, ?_, ?_⟩
    · rw [he2]; omega
    · rw [he3]; simp
  | succ j ih =>
    intro m st htimer hcnt
    have hstep : failStep st = triggerReconnect st := by
      unfold failStep
      simp [htimer]
    have hlt : st.reconnectAttempts < CONFIG.maxReconnectAttempts := by omega
    obtain ⟨hi1, hi2, hi3⟩ := triggerReconnect_incr st hlt
    have hih := ih m (triggerReconnect st).1 (by rw [hi2]; rfl) (by rw [hi1]; omega)
    have hidx : j + 1 + 1 + m = (j + 1 + m) + 1 := by omega
    rw [hidx]
    simp only [failRun, hstep]
    refine ⟨hih.1, hih.2.1, ?_⟩
    rw [hi3]
    simp [hih.2.2]

/-! ### Frame handling and backoff helper lemmas -/

theorem handleMessage_image (env : String → Bool) (st : ServiceState) (now : Nat)
    (s : String) (d : Option String) (hs : s ≠ "") :
    handleMessage env st now (some { type := "image", id := some s, data := d }) =
      if env s && truthy d then
        updateScreenStatus (updateActivity st s true now) (stripScreen s) true
      else (updateActivity st s true now, []) := by
  unfold handleMessage
  simp [hs]

theorem delayMs_le_cap (n : Nat) : delayMs n ≤ 30000 := min_le_right _ _

theorem delayMs_mono (m n : Nat) (h : m ≤ n) : delayMs m ≤ delayMs n := by
  unfold delayMs
  refine min_le_min ?_ (le_refl _)
  exact mul_le_mul_of_nonneg_left (pow_le_pow_right₀ (by norm_num) h) (by norm_num)

/-! ### Concrete scenario states -/

/-- The service as left by `connect()`: socket open, both periodic timers running. -/
def connectedState : ServiceState :=
  { initialState with
      socketOpen := true
      pingInterval := true
      activityCheckInterval := true }

/-- State after one accepted frame for `screen-ian` at time 2000 (card mounted). -/
def c1State : ServiceState :=
  (handleMessage (fun e => decide (e = "screen-ian")) connectedState 2000
    (some { type := "image", id := some "screen-ian", data := some "frame" })).1

/-- State after one accepted frame for `screen-bob` at time 1000 (card mounted). -/
def c9State : ServiceState :=
  (handleMessage (fun e => decide (e = "screen-bob")) connectedState 1000
    (some { type := "image", id := some "screen-bob", data := some "frame" })).1

/-- State after one accepted frame whose id is the case-variant `Screen-Ian`. -/
def c2State : ServiceState :=
  (handleMessage (fun _ => false) connectedState 1500
    (some { type := "image", id := some "Screen-Ian", data := some "frame" })).1

/-- A well-formed state with one screen online and its online state notified. -/
def c4Demo : ServiceState :=
  { connectedState with
      activityTracker := [("screen-zoe", { lastUpdate := 0, isOnline := true })]
      lastNotificationStatus := [("zoe", true)] }

/-- A well-formed state with three screens online, all notified online. -/
def c8Demo : ServiceState :=
  { connectedState with
      activityTracker :=
        [("screen-ian", { lastUpdate := 100, isOnline := true }),
         ("screen-matheus", { lastUpdate := 200, isOnline := true }),
         ("screen-andi", { lastUpdate := 300, isOnline := true })]
      lastNotificationStatus := [("ian", true), ("matheus", true), ("andi", true)] }


/-! ### Dedup suppression on divergent states

A screen can be tracked online while its last notified state is already
`false` (frames for unmounted rendering targets re-promote the record after
a sweep notified offline).  In that state the offline notification of a
later demotion, or of a transport close, is swallowed by the dedup check. -/

theorem sweepGo_eventCount_untouched (now : Nat) (l : List (String × Activity))
    (st : ServiceState) (n : String) (b : Bool)
    (h : ∀ q ∈ l, normOf q.1 ≠ n) :
    eventCount (n, b) (sweepGo now l st).2 = 0 := by
  induction l generalizing st with
  | nil => exact eventCount_nil _
  | cons p rest ih =>
    obtain ⟨k, a⟩ := p
    have hk : normOf k ≠ n := h (k, a) (List.mem_cons_self _ _)
    have hrest : ∀ q ∈ rest, normOf q.1 ≠ n := fun q hq => h q (List.mem_cons_of_mem _ hq)
    by_cases hst : staleAt now a
    · have h1 : eventCount (n, b)
          (updateScreenStatus (updateActivity st k false now) (stripScreen k) false).2 = 0 := by
        rw [updateScreenStatus_events]
        by_cases hc : getKey (updateActivity st k false now).lastNotificationStatus
            (toLowerCase (stripScreen k)) = some false
        · simp only [if_pos hc]
          exact eventCount_nil _
        · simp only [if_neg hc]
          apply eventCount_eq_zero
          intro x hx
          rw [List.mem_singleton] at hx
          subst hx
          intro he
          exact hk (by rw [← norm_eq]; exact congrArg Prod.fst he)
      simp only [sweepGo, if_pos hst]
      show eventCount (n, b)
        ((updateScreenStatus (updateActivity st k false now) (stripScreen k) false).2 ++
          (sweepGo now rest
            (updateScreenStatus (updateActivity st k false now) (stripScreen k) false).1).2) = 0
      rw [eventCount_append, h1, ih _ hrest]
    · simp only [sweepGo, if_neg hst]
      exact ih st hrest

theorem sweepGo_eventCount_dedup_zero (now : Nat) (l : List (String × Activity))
    (st : ServiceState) (s : String) (a : Activity)
    (hd : (l.map (fun p => normOf p.1)).Nodup) (hmem : (s, a) ∈ l)
    (hst : staleAt now a = true)
    (hmap : getKey st.lastNotificationStatus (normOf s) = some false) :
    eventCount (normOf s, false) (sweepGo now l st).2 = 0 := by
  induction l generalizing st with
  | nil => simp at hmem
  | cons p rest ih =>
    obtain ⟨k, b⟩ := p
    simp only [List.map_cons, List.nodup_cons] at hd
    rcases List.mem_cons.mp hmem with h | h
    · obtain ⟨h1, h2⟩ := Prod.mk.injEq .. ▸ h
      subst h1; subst h2
      have hcond : getKey (updateActivity st s false now).lastNotificationStatus
          (toLowerCase (stripScreen s)) = some false := by
        rw [updateActivity_lastNotif, norm_eq]
        exact hmap
      have hnoop := updateScreenStatus_noop (updateActivity st s false now) (stripScreen s) false hcond
      simp only [sweepGo, if_pos hst]
      show eventCount (normOf s, false)
        ((updateScreenStatus (updateActivity st s false now) (stripScreen s) false).2 ++
          (sweepGo now rest
            (updateScreenStatus (updateActivity st s false now) (stripScreen s) false).1).2) = 0
      rw [hnoop]
      show eventCount (normOf s, false) ([] ++ (sweepGo now rest (updateActivity st s false now)).2) = 0
      rw [List.nil_append]
      apply sweepGo_eventCount_untouched
      intro q hq he
      exact hd.1 (he ▸ List.mem_map_of_mem (fun p => normOf p.1) hq)
    · have hkn : normOf k ≠ normOf s := by
        intro he
        exact hd.1 (he ▸ List.mem_map_of_mem (fun p => normOf p.1) h)
      by_cases hstb : staleAt now b
      · have hmap' : getKey (updateScreenStatus (updateActivity st k false now)
            (stripScreen k) false).1.lastNotificationStatus (normOf s) = some false := by
          rw [updateScreenStatus_lastNotif, updateActivity_lastNotif, norm_eq,
            getKey_setKey_ne _ _ _ _ (fun he => hkn he.symm)]
          exact hmap
        have h1 : eventCount (normOf s, false)
            (updateScreenStatus (updateActivity st k false now) (stripScreen k) false).2 = 0 := by
          rw [updateScreenStatus_events]
          by_cases hc : getKey (updateActivity st k false now).lastNotificationStatus
              (toLowerCase (stripScreen k)) = some false
          · simp only [if_pos hc]
            exact eventCount_nil _
          · simp only [if_neg hc]
            apply eventCount_eq_zero
            intro x hx
            rw [List.mem_singleton] at hx
            subst hx
            intro he
            exact hkn (by rw [← norm_eq]; exact congrArg Prod.fst he)
        simp only [sweepGo, if_pos hstb]
        show eventCount (normOf s, false)
          ((updateScreenStatus (updateActivity st k false now) (stripScreen k) false).2 ++
            (sweepGo now rest
              (updateScreenStatus (updateActivity st k false now) (stripScreen k) false).1).2) = 0
        rw [eventCount_append, h1, ih _ hd.2 h hmap']
      · simp only [sweepGo, if_neg hstb]
        exact ih st hd.2 h hmap

theorem checkActivity_dedup_zero (st : ServiceState) (now : Nat) (s : String) (a : Activity)
    (hn : (st.activityTracker.map (fun p => normOf p.1)).Nodup)
    (hget : getKey st.activityTracker s = some a) (hst : staleAt now a = true)
    (hmap : getKey st.lastNotificationStatus (normOf s) = some false) :
    eventCount (normOf s, false) (checkActivity st now).2 = 0 :=
  sweepGo_eventCount_dedup_zero now st.activityTracker st s a hn (getKey_mem hget) hst hmap

theorem notifyGo_eventCount_untouched (ks : List String) (st : ServiceState)
    (n : String) (b : Bool) (h : ∀ k ∈ ks, normOf k ≠ n) :
    eventCount (n, b) (notifyGo ks st).2 = 0 := by
  induction ks generalizing st with
  | nil => exact eventCount_nil _
  | cons k rest ih =>
    have hk : normOf k ≠ n := h k (List.mem_cons_self _ _)
    have hrest : ∀ q ∈ rest, normOf q ≠ n := fun q hq => h q (List.mem_cons_of_mem _ hq)
    have h1 : eventCount (n, b) (updateScreenStatus st (stripScreen k) false).2 = 0 := by
      rw [updateScreenStatus_events]
      by_cases hc : getKey st.lastNotificationStatus (toLowerCase (stripScreen k)) = some false
      · simp only [if_pos hc]
        exact eventCount_nil _
      · simp only [if_neg hc]
        apply eventCount_eq_zero
        intro x hx
        rw [List.mem_singleton] at hx
        subst hx
        intro he
        exact hk (by rw [← norm_eq]; exact congrArg Prod.fst he)
    show eventCount (n, b) ((updateScreenStatus st (stripScreen k) false).2 ++
      (notifyGo rest (updateScreenStatus st (stripScreen k) false).1).2) = 0
    rw [eventCount_append, h1, ih _ hrest]

theorem notifyGo_eventCount_dedup_zero (ks : List String) (st : ServiceState) (s : String)
    (hd : (ks.map normOf).Nodup) (hmem : s ∈ ks)
    (hmap : getKey st.lastNotificationStatus (normOf s) = some false) :
    eventCount (normOf s, false) (notifyGo ks st).2 = 0 := by
  induction ks generalizing st with
  | nil => simp at hmem
  | cons k rest ih =>
    simp only [List.map_cons, List.nodup_cons] at hd
    rcases List.mem_cons.mp hmem with h | h
    · subst h
      have hnoop := updateScreenStatus_noop st (stripScreen s) false (by rw [norm_eq]; exact hmap)
      show eventCount (normOf s, false) ((updateScreenStatus st (stripScreen s) false).2 ++
        (notifyGo rest (updateScreenStatus st (stripScreen s) false).1).2) = 0
      rw [hnoop]
      show eventCount (normOf s, false) ([] ++ (notifyGo rest st).2) = 0
      rw [List.nil_append]
      apply notifyGo_eventCount_untouched
      intro q hq he
      exact hd.1 (he ▸ List.mem_map_of_mem normOf hq)
    · have hkn : normOf k ≠ normOf s := by
        intro he
        exact hd.1 (he ▸ List.mem_map_of_mem normOf h)
      have hmap' : getKey (updateScreenStatus st (stripScreen k) false).1.lastNotificationStatus
          (normOf s) = some false := by
        rw [updateScreenStatus_lastNotif, norm_eq,
          getKey_setKey_ne _ _ _ _ (fun he => hkn he.symm)]
        exact hmap
      have h1 : eventCount (normOf s, false) (updateScreenStatus st (stripScreen k) false).2 = 0 := by
        rw [updateScreenStatus_events]
        by_cases hc : getKey st.lastNotificationStatus (toLowerCase (stripScreen k)) = some false
        · simp only [if_pos hc]
          exact eventCount_nil _
        · simp only [if_neg hc]
          apply eventCount_eq_zero
          intro x hx
          rw [List.mem_singleton] at hx
          subst hx
          intro he
          exact hkn (by rw [← norm_eq]; exact congrArg Prod.fst he)
      show eventCount (normOf s, false) ((updateScreenStatus st (stripScreen k) false).2 ++
        (notifyGo rest (updateScreenStatus st (stripScreen k) false).1).2) = 0
      rw [eventCount_append, h1, ih _ hd.2 h hmap']

/-- A reachable divergent state: a frame for `screen-ghost` with no mounted
element at time 0, the sweep at 3500 demotes it and notifies offline, and a
second unmounted frame at 4000 re-tracks it online while the last notified
state stays `false`. -/
def c4DivergentState : ServiceState :=
  (handleMessage (fun _ => false)
    (checkActivity
      (handleMessage (fun _ => false) connectedState 0
        (some { type := "image", id := some "screen-ghost", data := some "frame" })).1
      3500).1
    4000 (some { type := "image", id := some "screen-ghost", data := some "frame" })).1

/-- The same reachable divergent construction for `screen-phantom`. -/
def c8DivergentState : ServiceState :=
  (handleMessage (fun _ => false)
    (checkActivity
      (handleMessage (fun _ => false) connectedState 0
        (some { type := "image", id := some "screen-phantom", data := some "frame" })).1
      3500).1
    4000 (some { type := "image", id := some "screen-phantom", data := some "frame" })).1

/-! ### Claim theorems -/

/-- C1: `isScreenOnline` is false for every identifier before the first
accepted frame, but after `disconnect()` the code leaves the liveness record
of a previously online screen with `isOnline = true`, so the query still
answers true — refuting the claim that it returns false for every screen
after `disconnect()`.  This contradicts both the spec and the code's own
comment (`// Marca todas as telas como offline`): `disconnect` only
notifies, it never writes the activity tracker. -/
theorem c1_disconnect_leaves_screen_online :
    isScreenOnline initialState "ian" = false ∧
    isScreenOnline c1State "ian" = true ∧
    (disconnect c1State).2 = [("ian", false)] ∧
    isScreenOnline (disconnect c1State).1 "ian" = true := by decide

/-- C9: evaluation of `disconnect()` after one accepted frame.  The socket
is closed, the reconnect timer and both periodic timers are cancelled, and
the offline transition is emitted — but the tracked liveness record is left
online (`lastUpdate = 1000, isOnline = true`), so the claimed "every
tracked screen's liveness record is forced offline" fails on the code. -/
theorem c9_disconnect_teardown_evaluation :
    (disconnect c9State).1.socketOpen = false ∧
    (disconnect c9State).1.reconnectTimeout = none ∧
    (disconnect c9State).1.pingInterval = false ∧
    (disconnect c9State).1.activityCheckInterval = false ∧
    (disconnect c9State).2 = [("bob", false)] ∧
    getKey (disconnect c9State).1.activityTracker "screen-bob" =
      some { lastUpdate := 1000, isOnline := true } := by decide

/-- C2 counterexample: liveness tracking on frame receipt does NOT
normalize: an accepted frame with id `Screen-Ian` is stored under the raw
key, a second frame under `screen-ian` would create a distinct record, and
the `isScreenOnline` query for any case variant of the username misses the
record — so case-variants do not address the same liveness record. -/
theorem c2_counterexample :
    c2State.activityTracker =
      [("Screen-Ian", { lastUpdate := 1500, isOnline := true })] ∧
    isScreenOnline c2State "ian" = false ∧
    isScreenOnline c2State "Ian" = false ∧
    (updateActivity (updateActivity initialState "screen-ian" true 5) "Screen-Ian" true 6).activityTracker =
      [("screen-ian", { lastUpdate := 5, isOnline := true }),
       ("Screen-Ian", { lastUpdate := 6, isOnline := true })] := by decide

/-- C2 amended: the `isScreenOnline` query and the notification dedup of
`updateScreenStatus` normalize the identifier to lower case before
comparison (case-variant usernames are interchangeable there), but liveness
tracking keys records by the raw identifier, so a frame id that differs in
case from the `screen-` + lower-case form is tracked under a distinct
record invisible to the query. -/
theorem c2_amended_normalization (u v : String) (st : ServiceState) (b : Bool)
    (h : toLowerCase u = toLowerCase v) :
    isScreenOnline st u = isScreenOnline st v ∧
    updateScreenStatus st u b = updateScreenStatus st v b ∧
    (∀ s now, getKey (updateActivity st s b now).activityTracker s =
      some { lastUpdate := now, isOnline := b }) ∧
    isScreenOnline (updateActivity initialState "Screen-Ian" true 5) "ian" = false := by
  refine ⟨?_, ?_, ?_, by decide⟩
  · unfold isScreenOnline
    rw [h]
  · unfold updateScreenStatus
    rw [h]
  · intro s now
    rw [updateActivity_tracker, getKey_setKey_self]

/-- C2 witness: the amended statement applied at the case-variants
`IAN` / `Ian` on the initial state. -/
theorem c2_witness :
    isScreenOnline initialState "IAN" = isScreenOnline initialState "Ian" ∧
    updateScreenStatus initialState "IAN" true = updateScreenStatus initialState "Ian" true ∧
    getKey (updateActivity initialState "screen-x" true 3).activityTracker "screen-x" =
      some { lastUpdate := 3, isOnline := true } := by
  have h := c2_amended_normalization "IAN" "Ian" initialState true (by decide)
  exact ⟨h.1, h.2.1, h.2.2.1 "screen-x" 3⟩

/-- C3 counterexample: an image message with an id but missing `data` is
malformed in the claim's sense, yet processing it creates a liveness
record (raw id, current timestamp, online) — so "causes no change to any
liveness record" fails on the code. -/
theorem c3_counterexample :
    initialState.activityTracker = [] ∧
    (handleMessage (fun _ => true) initialState 5
        (some { type := "image", id := some "screen-ian", data := none })).1.activityTracker =
      [("screen-ian", { lastUpdate := 5, isOnline := true })] := by decide

/-- C3 amended: an unparsable envelope, a non-image type, a missing id, or
an empty id leave the whole state unchanged and emit nothing; an image
message with a non-empty id but missing `data` still updates the liveness
record for the raw id (the activity tracker is written before the data
check) but raises no exception and emits no presence transition.  The
handler is a total function, so nothing ever throws across the transport
boundary. -/
theorem c3_amended_malformed_robustness (env : String → Bool) (st : ServiceState)
    (now : Nat) (m : WSMessage) (t : String) (d : Option String) (s : String)
    (hm : m.type ≠ "image") (hs : s ≠ "") :
    handleMessage env st now none = (st, []) ∧
    handleMessage env st now (some m) = (st, []) ∧
    handleMessage env st now (some { type := t, id := none, data := d }) = (st, []) ∧
    handleMessage env st now (some { type := t, id := some "", data := d }) = (st, []) ∧
    handleMessage env st now (some { type := "image", id := some s, data := none }) =
      (updateActivity st s true now, []) := by
  refine ⟨rfl, ?_, ?_, ?_, ?_⟩
  · unfold handleMessage
    simp [hm]
  · by_cases ht : t = "image" <;> simp [handleMessage, ht]
  · by_cases ht : t = "image" <;> simp [handleMessage, ht]
  · rw [handleMessage_image env st now s none hs]
    simp [truthy]

/-- C3 witness: the amended statement applied at time 7 with a mounted
environment, a `pong` message, and the id `screen-a`. -/
theorem c3_witness :
    handleMessage (fun _ => true) initialState 7 none = (initialState, []) ∧
    handleMessage (fun _ => true) initialState 7 (some { type := "pong" }) = (initialState, []) ∧
    handleMessage (fun _ => true) initialState 7
      (some { type := "zzz", id := none, data := some "x" }) = (initialState, []) ∧
    handleMessage (fun _ => true) initialState 7
      (some { type := "zzz", id := some "", data := some "x" }) = (initialState, []) ∧
    handleMessage (fun _ => true) initialState 7
      (some { type := "image", id := some "screen-a", data := none }) =
      (updateActivity initialState "screen-a" true 7, []) :=
  c3_amended_malformed_robustness (fun _ => true) initialState 7 { type := "pong" }
    "zzz" (some "x") "screen-a" (by decide) (by decide)

/-- C10: an image message with a non-empty id and non-empty data whose card
element is not mounted still records `lastUpdate = now, isOnline = true` in
the activity tracker under the raw id, emits no presence transition and
leaves the notification map unchanged — so `isScreenOnline` can answer
true for a screen for which no online transition was ever broadcast. -/
theorem c10_unmounted_frame_tracks_raw (env : String → Bool) (st : ServiceState)
    (now : Nat) (s d : String) (hs : s ≠ "") (_hd : d ≠ "") (henv : env s = false) :
    (handleMessage env st now (some { type := "image", id := some s, data := some d })).2 = [] ∧
    (handleMessage env st now (some { type := "image", id := some s, data := some d })).1.activityTracker =
      setKey st.activityTracker s { lastUpdate := now, isOnline := true } ∧
    (handleMessage env st now (some { type := "image", id := some s, data := some d })).1.lastNotificationStatus =
      st.lastNotificationStatus ∧
    ∀ u, "screen-" ++ toLowerCase u = s →
      isScreenOnline
        (handleMessage env st now (some { type := "image", id := some s, data := some d })).1 u = true := by
  have hhm : handleMessage env st now (some { type := "image", id := some s, data := some d }) =
      (updateActivity st s true now, []) := by
    rw [handleMessage_image env st now s (some d) hs]
    simp [henv]
  rw [hhm]
  refine ⟨rfl, updateActivity_tracker st s true now, updateActivity_lastNotif st s true now, ?_⟩
  intro u hu
  unfold isScreenOnline
  rw [hu, updateActivity_tracker, getKey_setKey_self]

/-- C10 witness: the theorem applied to a fresh state, id `screen-kat`,
with nothing mounted; the query for username `Kat` answers true. -/
theorem c10_witness :
    (handleMessage (fun _ => false) initialState 9
      (some { type := "image", id := some "screen-kat", data := some "x" })).2 = [] ∧
    (handleMessage (fun _ => false) initialState 9
      (some { type := "image", id := some "screen-kat", data := some "x" })).1.activityTracker =
      setKey initialState.activityTracker "screen-kat" { lastUpdate := 9, isOnline := true } ∧
    isScreenOnline (handleMessage (fun _ => false) initialState 9
      (some { type := "image", id := some "screen-kat", data := some "x" })).1 "Kat" = true := by
  have h := c10_unmounted_frame_tracks_raw (fun _ => false) initialState 9 "screen-kat" "x"
    (by decide) (by decide) rfl
  exact ⟨h.1, h.2.1, h.2.2.2 "Kat" (by decide)⟩

/-- C5: presence notification is deduplicated per (lower-cased) identifier
against `lastNotificationStatus`, a map separate from the activity tracker
(the notifier never writes the tracker): notifying a state equal to the
last notified one is a complete no-op, each call broadcasts at most one
event, a second identical notification after any notification emits
nothing, and re-delivering the same accepted frame (mark-alive while
already online) emits zero additional transitions. -/
theorem c5_notification_dedup (st : ServiceState) (u : String) (b : Bool)
    (env : String → Bool) (now now2 : Nat) (s d : String)
    (hlast : getKey st.lastNotificationStatus (toLowerCase u) = some b)
    (hs : s ≠ "") (hd : d ≠ "") (henv : env s = true) :
    updateScreenStatus st u b = (st, []) ∧
    (∀ st1 u1 b1, (updateScreenStatus st1 u1 b1).1.activityTracker = st1.activityTracker) ∧
    (∀ st1 u1 b1, (updateScreenStatus st1 u1 b1).2.length ≤ 1) ∧
    (∀ st1 u1 b1, updateScreenStatus (updateScreenStatus st1 u1 b1).1 u1 b1 =
      ((updateScreenStatus st1 u1 b1).1, [])) ∧
    (handleMessage env
      (handleMessage env st now (some { type := "image", id := some s, data := some d })).1
      now2 (some { type := "image", id := some s, data := some d })).2 = [] := by
  refine ⟨updateScreenStatus_noop st u b hlast, updateScreenStatus_tracker, ?_, ?_, ?_⟩
  · intro st1 u1 b1
    rw [updateScreenStatus_events]
    by_cases h : getKey st1.lastNotificationStatus (toLowerCase u1) = some b1 <;> simp [h]
  · intro st1 u1 b1
    apply updateScreenStatus_noop
    rw [updateScreenStatus_lastNotif, getKey_setKey_self]
  · have htr : truthy (some d) = true := by
      simp [truthy]
      intro he
      exact hd he
    have hfirst : handleMessage env st now (some { type := "image", id := some s, data := some d }) =
        updateScreenStatus (updateActivity st s true now) (stripScreen s) true := by
      rw [handleMessage_image env st now s (some d) hs]
      simp [henv, htr]
    have hnotif1 : (handleMessage env st now
        (some { type := "image", id := some s, data := some d })).1.lastNotificationStatus =
        setKey st.lastNotificationStatus (normOf s) true := by
      rw [hfirst, updateScreenStatus_lastNotif, updateActivity_lastNotif, norm_eq]
    rw [handleMessage_image env _ now2 s (some d) hs]
    simp only [henv, htr, Bool.and_self, if_pos rfl]
    have hsecond : getKey (updateActivity
        (handleMessage env st now (some { type := "image", id := some s, data := some d })).1
          s true now2).lastNotificationStatus (toLowerCase (stripScreen s)) = some true := by
      rw [updateActivity_lastNotif, hnotif1, norm_eq, getKey_setKey_self]
    rw [updateScreenStatus_noop _ _ _ hsecond]
    simp

/-- C5 witness: dedup no-op on a state that already notified `zoe` online,
the structural conjuncts at concrete arguments, and a second frame for
`screen-zoe` on a mounted card emitting nothing. -/
theorem c5_witness :
    updateScreenStatus c4Demo "zoe" true = (c4Demo, []) ∧
    (handleMessage (fun _ => true)
      (handleMessage (fun _ => true) c4Demo 100 (some { type := "image", id := some "screen-zoe", data := some "f" })).1
      200 (some { type := "image", id := some "screen-zoe", data := some "f" })).2 = [] := by
  have h := c5_notification_dedup c4Demo "zoe" true (fun _ => true) 100 200 "screen-zoe" "f"
    (by decide) (by decide) (by decide) rfl
  exact ⟨h.1, h.2.2.2.2⟩

/-- C6: the reconnect delay for attempt number n is
min(1000 · 1.5^n, 30000) — monotone non-decreasing in n and never above
the 30000 ms cap; each `triggerReconnect` below the attempt cap increments
the counter by one and schedules exactly that delay; `handleOpen` (a
successful transport open) resets the counter to 0; `send` never modifies
the service state, in particular never the attempt counter. -/
theorem c6_backoff_shape (m n : Nat) (st st2 st3 : ServiceState) (msg : WSMessage)
    (hmn : m ≤ n) (hlt : st.reconnectAttempts < CONFIG.maxReconnectAttempts) :
    delayMs n = min (1000 * (3 / 2 : ℚ) ^ n) 30000 ∧
    delayMs n ≤ 30000 ∧
    delayMs m ≤ delayMs n ∧
    (triggerReconnect st).1.reconnectAttempts = st.reconnectAttempts + 1 ∧
    (triggerReconnect st).1.reconnectTimeout = some (delayMs (st.reconnectAttempts + 1)) ∧
    (handleOpen st2).reconnectAttempts = 0 ∧
    (send st3 msg).1 = st3 := by
  obtain ⟨h1, h2, _⟩ := triggerReconnect_incr st hlt
  exact ⟨rfl, delayMs_le_cap n, delayMs_mono m n hmn, h1, h2, rfl, rfl⟩

/-- C6 witness: the backoff conjunction applied at attempts 2 ≤ 5 and the
initial state (attempt counter 0). -/
theorem c6_witness :
    delayMs 5 = min (1000 * (3 / 2 : ℚ) ^ 5) 30000 ∧
    delayMs 5 ≤ 30000 ∧
    delayMs 2 ≤ delayMs 5 ∧
    (triggerReconnect initialState).1.reconnectAttempts = initialState.reconnectAttempts + 1 ∧
    (triggerReconnect initialState).1.reconnectTimeout =
      some (delayMs (initialState.reconnectAttempts + 1)) ∧
    (handleOpen initialState).reconnectAttempts = 0 ∧
    (send initialState { type := "ping" }).1 = initialState :=
  c6_backoff_shape 2 5 initialState initialState initialState { type := "ping" }
    (by decide) (by decide)

/-- C7: starting from attempt counter 0, the first `triggerReconnect` does
not surface exhaustion; after the configured maximum (10) of failed
attempts the run reaches a state with no reconnect timer scheduled, the
counter pinned at the maximum, and the exhausted condition surfaced exactly
once — and it stays that way for every longer run (no further timer is
ever scheduled without an external trigger). -/
theorem c7_exhaustion_terminal (st : ServiceState) (m : Nat)
    (h : st.reconnectAttempts = 0) :
    (triggerReconnect st).2 = false ∧
    (failRun (CONFIG.maxReconnectAttempts + m) (triggerReconnect st).1).1.reconnectTimeout = none ∧
    (failRun (CONFIG.maxReconnectAttempts + m) (triggerReconnect st).1).1.reconnectAttempts =
      CONFIG.maxReconnectAttempts ∧
    (failRun (CONFIG.maxReconnectAttempts + m) (triggerReconnect st).1).2 = 1 := by
  have hlt : st.reconnectAttempts < CONFIG.maxReconnectAttempts := by
    rw [h]; decide
  obtain ⟨h1, h2, h3⟩ := triggerReconnect_incr st hlt
  have hidx : CONFIG.maxReconnectAttempts + m = 9 + 1 + m := rfl
  have hcd := failRun_countdown 9 m (triggerReconnect st).1 (by rw [h2]; rfl)
    (by rw [h1, h]; rfl)
  rw [hidx]
  exact ⟨h3, hcd.1, hcd.2.1, hcd.2.2⟩

/-- C7 witness: the exhaustion run from the initial state, observed at
exactly the maximum number of failed attempts. -/
theorem c7_witness :
    (triggerReconnect initialState).2 = false ∧
    (failRun (CONFIG.maxReconnectAttempts + 0) (triggerReconnect initialState).1).1.reconnectTimeout = none ∧
    (failRun (CONFIG.maxReconnectAttempts + 0) (triggerReconnect initialState).1).1.reconnectAttempts =
      CONFIG.maxReconnectAttempts ∧
    (failRun (CONFIG.maxReconnectAttempts + 0) (triggerReconnect initialState).1).2 = 1 :=
  c7_exhaustion_terminal initialState 0 rfl

/-- C8 counterexample to the original claim: in the reachable divergent
state `c8DivergentState` exactly one screen (`screen-phantom`) is tracked
online, yet a transport close dispatches no offline transition at all —
the offline notification is swallowed by the dedup check because the last
notified state for `phantom` is already `false`. -/
theorem c8_counterexample :
    c8DivergentState.activityTracker =
      [("screen-phantom", { lastUpdate := 4000, isOnline := true })] ∧
    c8DivergentState.lastNotificationStatus = [("phantom", false)] ∧
    (handleClose c8DivergentState).2.1 = [] := by decide

/-- C8 amended: on any transport close the handler stops both periodic
timers and, when the attempt counter was 0 before the close, schedules a
reconnect with the counter equal to 1; it forwards an offline notification
for every tracked screen, and when every tracked screen's last notified
state agrees with its record's online flag (in particular whenever every
online screen's online edge had actually been broadcast) the dispatched
list is exactly one offline transition per online tracked screen (in
tracker order, normalized usernames).  An online tracked screen whose last
notified state is already `false` — reachable via frames for unmounted
rendering targets after a prior offline notification — receives no
transition on close. -/
theorem c8_close_offline_broadcast (st : ServiceState) (s : String) (a : Activity) :
    (Consistent st →
      (handleClose st).2.1 =
        (st.activityTracker.filter (fun p => p.2.isOnline)).map (fun p => (normOf p.1, false))) ∧
    (handleClose st).1.pingInterval = false ∧
    (handleClose st).1.activityCheckInterval = false ∧
    (st.reconnectAttempts = 0 →
      (handleClose st).1.reconnectAttempts = 1 ∧
      (handleClose st).1.reconnectTimeout = some (delayMs 1)) ∧
    ((st.activityTracker.map (fun p => normOf p.1)).Nodup →
      getKey st.activityTracker s = some a → a.isOnline = true →
      getKey st.lastNotificationStatus (normOf s) = some false →
      eventCount (normOf s, false) (handleClose st).2.1 = 0) := by
  have hst1tr : (stopActivityCheck (stopPingInterval st)).activityTracker = st.activityTracker := rfl
  have hst1ln : (stopActivityCheck (stopPingInterval st)).lastNotificationStatus =
      st.lastNotificationStatus := rfl
  have hNf := notifyGo_fields (keysOf (stopActivityCheck (stopPingInterval st)).activityTracker)
    (stopActivityCheck (stopPingInterval st))
  have hTf := triggerReconnect_fields (notifyGo
    (keysOf (stopActivityCheck (stopPingInterval st)).activityTracker)
    (stopActivityCheck (stopPingInterval st))).1
  refine ⟨?_, ?_, ?_, ?_, ?_⟩
  · intro hC
    obtain ⟨hk, hn, hc⟩ := hC
    show (notifyGo (keysOf (stopActivityCheck (stopPingInterval st)).activityTracker)
        (stopActivityCheck (stopPingInterval st))).2 = _
    rw [hst1tr]
    exact notifyGo_events st.activityTracker (stopActivityCheck (stopPingInterval st)) hn
      (by rw [hst1ln]; exact hc)
  · show (triggerReconnect _).1.pingInterval = false
    rw [hTf.1, hNf.2.2.2.1]
    rfl
  · show (triggerReconnect _).1.activityCheckInterval = false
    rw [hTf.2.1, hNf.2.2.2.2.1]
    rfl
  · intro h0
    have hatt : (notifyGo (keysOf (stopActivityCheck (stopPingInterval st)).activityTracker)
        (stopActivityCheck (stopPingInterval st))).1.reconnectAttempts = 0 := by
      rw [hNf.2.1]
      exact h0
    have hlt : (notifyGo (keysOf (stopActivityCheck (stopPingInterval st)).activityTracker)
        (stopActivityCheck (stopPingInterval st))).1.reconnectAttempts <
        CONFIG.maxReconnectAttempts := by
      rw [hatt]; decide
    obtain ⟨hi1, hi2, _⟩ := triggerReconnect_incr _ hlt
    constructor
    · show (triggerReconnect _).1.reconnectAttempts = 1
      rw [hi1, hatt]
    · show (triggerReconnect _).1.reconnectTimeout = some (delayMs 1)
      rw [hi2, hatt]
  · intro hn hget _hon hmap
    show eventCount (normOf s, false)
      (notifyGo (keysOf (stopActivityCheck (stopPingInterval st)).activityTracker)
        (stopActivityCheck (stopPingInterval st))).2 = 0
    apply notifyGo_eventCount_dedup_zero
    · exact norms_eq_map_keys st.activityTracker ▸ hn
    · exact mem_keysOf_of_mem (getKey_mem hget)
    · exact hmap

/-- C8 witness: closing over three online, notified screens dispatches
exactly their three offline transitions in tracker order and schedules the
first reconnect attempt; closing over the divergent `screen-phantom` state
dispatches nothing for that online screen. -/
theorem c8_witness :
    (handleClose c8Demo).2.1 = [("ian", false), ("matheus", false), ("andi", false)] ∧
    (handleClose c8Demo).1.pingInterval = false ∧
    (handleClose c8Demo).1.activityCheckInterval = false ∧
    (handleClose c8Demo).1.reconnectAttempts = 1 ∧
    eventCount (normOf "screen-phantom", false) (handleClose c8DivergentState).2.1 = 0 := by
  have h := c8_close_offline_broadcast c8Demo "screen-ian" { lastUpdate := 100, isOnline := true }
  have hD := c8_close_offline_broadcast c8DivergentState "screen-phantom"
    { lastUpdate := 4000, isOnline := true }
  refine ⟨?_, h.2.1, h.2.2.1, (h.2.2.2.1 rfl).1,
    hD.2.2.2.2 (by decide) (by decide) (by decide) (by decide)⟩
  rw [h.1 (by decide)]
  decide

/-- C4 counterexample to the original claim: in the reachable divergent
state `c4DivergentState` the record for `screen-ghost` is online with
`lastUpdate = 4000` and no further frame arrives, so the offline threshold
is crossed at 7000; the sweep at 8000 (exactly one sweep interval after the
crossing) does demote the record, but it emits no offline transition, and a
whole cadence of ten sweeps from 4000 emits none either — refuting
"exactly one offline transition is emitted no later than one sweep-interval
after the threshold is crossed". -/
theorem c4_counterexample :
    c4DivergentState.activityTracker =
      [("screen-ghost", { lastUpdate := 4000, isOnline := true })] ∧
    c4DivergentState.lastNotificationStatus = [("ghost", false)] ∧
    (checkActivity c4DivergentState 8000).1.activityTracker =
      [("screen-ghost", { lastUpdate := 8000, isOnline := false })] ∧
    (checkActivity c4DivergentState 8000).2 = [] ∧
    (sweepRun 4000 c4DivergentState 10).1.activityTracker =
      [("screen-ghost", { lastUpdate := 8000, isOnline := false })] ∧
    (sweepRun 4000 c4DivergentState 10).2 = [] := by decide

/-- C4 amended: one sweep demotes exactly the stale records — every record
online with now − lastUpdate strictly above the 3000 ms threshold is set
offline (timestamped with the sweep time) and its offline notification is
forwarded to the dedup notifier, while records offline or within the
threshold are left unchanged.  When the screen's last notified state agrees
with its record's online flag (as holds throughout the mounted-card
lifecycle), the demotion broadcasts exactly one offline transition, a
fresh record contributes no event, and along the sweep cadence exactly one
offline transition is emitted no later than one sweep interval after the
threshold is crossed.  But for a record tracked online whose last notified
state is already `false` — reachable via frames for unmounted rendering
targets after a prior offline notification — the demotion emits zero
transitions. -/
theorem c4_sweep_demotes_exactly_stale (st : ServiceState) (now t0 L : Nat)
    (s : String) (a : Activity) (hk : (keysOf st.activityTracker).Nodup) :
    (getKey st.activityTracker s = some a → a.isOnline = true →
      CONFIG.offline < now - a.lastUpdate →
      getKey (checkActivity st now).1.activityTracker s =
        some { lastUpdate := now, isOnline := false }) ∧
    (getKey st.activityTracker s = some a →
      (a.isOnline = false ∨ now - a.lastUpdate ≤ CONFIG.offline) →
      getKey (checkActivity st now).1.activityTracker s = some a) ∧
    (Consistent st → getKey st.activityTracker s = some a → a.isOnline = true →
      CONFIG.offline < now - a.lastUpdate →
      eventCount (normOf s, false) (checkActivity st now).2 = 1) ∧
    (Consistent st → getKey st.activityTracker s = some a →
      (a.isOnline = false ∨ now - a.lastUpdate ≤ CONFIG.offline) →
      eventCount (normOf s, false) (checkActivity st now).2 = 0) ∧
    (Consistent st →
      getKey st.activityTracker s = some { lastUpdate := L, isOnline := true } →
      t0 ≤ L + CONFIG.offline →
      ∃ k, CONFIG.offline < (t0 + k * CONFIG.activityCheck) - L ∧
        t0 + k * CONFIG.activityCheck ≤ L + CONFIG.offline + CONFIG.activityCheck ∧
        ∀ m, k < m → eventCount (normOf s, false) (sweepRun t0 st m).2 = 1) ∧
    ((st.activityTracker.map (fun p => normOf p.1)).Nodup →
      getKey st.activityTracker s = some a → a.isOnline = true →
      CONFIG.offline < now - a.lastUpdate →
      getKey st.lastNotificationStatus (normOf s) = some false →
      eventCount (normOf s, false) (checkActivity st now).2 = 0) := by
  refine ⟨?_, ?_, ?_, ?_, ?_, ?_⟩
  · intro hget hon hthr
    have hst : staleAt now a = true := by
      unfold staleAt
      rw [hon]
      simpa using hthr
    exact sweepGo_tracker_stale now st.activityTracker st s a hk (getKey_mem hget) hst
  · intro hget hnot
    have hstf : staleAt now a = false := by
      unfold staleAt
      rcases hnot with h | h
      · rw [h]
        rfl
      · have : ¬ CONFIG.offline < now - a.lastUpdate := by omega
        simp [this]
    have honly : ∀ p ∈ st.activityTracker, p.1 = s → staleAt now p.2 = false := by
      intro p hp he
      have hgp : getKey st.activityTracker p.1 = some p.2 :=
        getKey_of_mem_nodup hk (Prod.mk.eta ▸ hp)
      rw [he, hget] at hgp
      have ha : p.2 = a := by injection hgp.symm
      rw [ha]
      exact hstf
    unfold checkActivity
    rw [sweepGo_tracker_notstale now st.activityTracker st s honly]
    exact hget
  · intro hC hget hon hthr
    have hst : staleAt now a = true := by
      unfold staleAt
      rw [hon]
      simpa using hthr
    exact (checkActivity_stale st now s a hC hget hst).2
  · intro hC hget hnot
    have hstf : staleAt now a = false := by
      unfold staleAt
      rcases hnot with h | h
      · rw [h]
        rfl
      · have : ¬ CONFIG.offline < now - a.lastUpdate := by omega
        simp [this]
    exact (checkActivity_notstale st now s a hC hget hstf).2
  · intro hC hget ht0
    exact sweepRun_exactly_once t0 L s st hC hget ht0
  · intro hn hget hon hthr hmap
    have hst : staleAt now a = true := by
      unfold staleAt
      rw [hon]
      simpa using hthr
    exact checkActivity_dedup_zero st now s a hn hget hst hmap

/-- C4 witness: the notified screen `screen-zoe` (last frame at 0) is
demoted with exactly one event by a sweep at 4000, left untouched with no
event by a sweep at 2000, and the cadence from t0 = 0 emits exactly one
offline transition in every sufficiently long run; the divergent
`screen-ghost` record is demoted by the sweep at 8000 with zero events. -/
theorem c4_witness :
    getKey (checkActivity c4Demo 4000).1.activityTracker "screen-zoe" =
      some { lastUpdate := 4000, isOnline := false } ∧
    eventCount (normOf "screen-zoe", false) (checkActivity c4Demo 4000).2 = 1 ∧
    getKey (checkActivity c4Demo 2000).1.activityTracker "screen-zoe" =
      some { lastUpdate := 0, isOnline := true } ∧
    eventCount (normOf "screen-zoe", false) (checkActivity c4Demo 2000).2 = 0 ∧
    (∃ k, CONFIG.offline < (0 + k * CONFIG.activityCheck) - 0 ∧
      0 + k * CONFIG.activityCheck ≤ 0 + CONFIG.offline + CONFIG.activityCheck ∧
      ∀ m, k < m → eventCount (normOf "screen-zoe", false) (sweepRun 0 c4Demo m).2 = 1) ∧
    getKey (checkActivity c4DivergentState 8000).1.activityTracker "screen-ghost" =
      some { lastUpdate := 8000, isOnline := false } ∧
    eventCount (normOf "screen-ghost", false) (checkActivity c4DivergentState 8000).2 = 0 := by
  have hw := c4_sweep_demotes_exactly_stale c4Demo 4000 0 0 "screen-zoe"
    { lastUpdate := 0, isOnline := true } (by decide)
  have hw2 := c4_sweep_demotes_exactly_stale c4Demo 2000 0 0 "screen-zoe"
    { lastUpdate := 0, isOnline := true } (by decide)
  have hw0 := c4_sweep_demotes_exactly_stale c4Demo 0 0 0 "screen-zoe"
    { lastUpdate := 0, isOnline := true } (by decide)
  have hwD := c4_sweep_demotes_exactly_stale c4DivergentState 8000 0 0 "screen-ghost"
    { lastUpdate := 4000, isOnline := true } (by decide)
  exact ⟨hw.1 (by decide) (by decide) (by decide),
    hw.2.2.1 (by decide) (by decide) (by decide) (by decide),
    hw2.2.1 (by decide) (Or.inr (by decide)),
    hw2.2.2.2.1 (by decide) (by decide) (Or.inr (by decide)),
    hw0.2.2.2.2.1 (by decide) (by decide) (by decide),
    hwD.1 (by decide) (by decide) (by decide),
    hwD.2.2.2.2.2 (by decide) (by decide) (by decide) (by decide) (by decide)⟩
